import Mathlib

/-!
# Verification of the Bender grid-walker engine

A shallow embedding of `bender.py`: a single walker on a mutable 2D grid of
single-character cell codes, with forced-direction cells, a priority list,
a beer (pass-through) flag, breakable obstacles and paired teleporters.

Python lists are modelled as `List`, Python indexing (including negative-index
wraparound) as `pyGet`/`pySet`, dictionaries as association lists, and
exceptions as `Except BErr`.  Each method of the `Bender` class becomes a
function `BState → Except BErr BState` (or returning a value), translated
clause by clause from the source.
-/

/-- Error kinds the Python program can raise: the dedicated `BenderTrapped`
exception, plus the builtin `TypeError` (subscripting `None`), `KeyError`
(missing dict key) and `IndexError` (list index out of range).  `outOfFuel`
is an artifact of bounding the driver loop with fuel; the source loops
unboundedly. -/
inductive BErr where
  | trapped
  | typeError
  | keyError
  | indexError
  | outOfFuel
deriving DecidableEq, Repr

/-- Python list-index resolution: a negative index counts from the end;
out-of-range yields `none` (an `IndexError`). -/
def pyIdx (n : Nat) (i : Int) : Option Nat :=
  let j : Int := if i < 0 then i + n else i
  if 0 ≤ j ∧ j < n then some j.toNat else none

/-- Python `l[i]` on a list. -/
def pyGet {α : Type} (l : List α) (i : Int) : Except BErr α :=
  match pyIdx l.length i with
  | some j =>
    match l.get? j with
    | some a => Except.ok a
    | none => Except.error BErr.indexError
  | none => Except.error BErr.indexError

/-- Python `l[i] = a` on a list. -/
def pySet {α : Type} (l : List α) (i : Int) (a : α) : Except BErr (List α) :=
  match pyIdx l.length i with
  | some j => Except.ok (l.set j a)
  | none => Except.error BErr.indexError

/-- Python `rows[x][y]`, a two-level read. -/
def pyGet2 (rows : List (List Char)) (x y : Int) : Except BErr Char := do
  let row ← pyGet rows x
  pyGet row y

/-- Python `rows[x][y] = c`: the row object is mutated in place, which for an
immutable embedding means replacing row `x` by its updated copy. -/
def pySet2 (rows : List (List Char)) (x y : Int) (c : Char) :
    Except BErr (List (List Char)) :=
  match pyIdx rows.length x with
  | none => Except.error BErr.indexError
  | some j =>
    match rows.get? j with
    | none => Except.error BErr.indexError
    | some row => do
      let row2 ← pySet row y c
      Except.ok (rows.set j row2)

/-- The module-level `directions` dict: compass letter to `(dx, dy)` delta. -/
def directionsMap (c : Char) : Option (Int × Int) :=
  if c = 'w' then some (0, -1)
  else if c = 'n' then some (-1, 0)
  else if c = 'e' then some (0, 1)
  else if c = 's' then some (1, 0)
  else none

/-- The module-level `DIRECTION_LONG_NAMES` dict. -/
def longName (c : Char) : Option String :=
  if c = 'n' then some "NORTH"
  else if c = 's' then some "SOUTH"
  else if c = 'e' then some "EAST"
  else if c = 'w' then some "WEST"
  else none

/-- The module-level default `priorities` list `['s', 'e', 'n', 'w']`. -/
def prioritiesDefault : List Char := ['s', 'e', 'n', 'w']

/-- The module-level `TIMEOUT` constant. -/
def TIMEOUT : Nat := 8000

/-- The mutable state of a `Bender` instance: the board `rows`, position
`x, y`, the optional teleporter dict, the move history (of long direction
names), the current direction letter, the priority list and the beer flag. -/
structure BState where
  rows : List (List Char)
  x : Int
  y : Int
  teleport : Option (List ((Int × Int) × (Int × Int)))
  history : List String
  currentDirection : Char
  priorities : List Char
  inBeer : Bool
deriving DecidableEq, Repr

/-- Association-list lookup, modelling Python dict subscription
(`none` means `KeyError`). -/
def dictLookup : List ((Int × Int) × (Int × Int)) → (Int × Int) → Option (Int × Int)
  | [], _ => none
  | (k, v) :: rest, q => if k = q then some v else dictLookup rest q

/-- `Bender.current_cell`: `self.rows[self.x][self.y]`. -/
def currentCell (s : BState) : Except BErr Char :=
  pyGet2 s.rows s.x s.y

/-- `Bender.obstacles`: `'#'` when in beer state, else `'#X'`. -/
def obstacles (s : BState) : List Char :=
  if s.inBeer then ['#'] else ['#', 'X']

/-- `Bender.get_cell`: the cell one step away in the given compass direction. -/
def get_cell (s : BState) (compass : Char) : Except BErr Char :=
  match directionsMap compass with
  | none => Except.error BErr.keyError
  | some d => pyGet2 s.rows (s.x + d.1) (s.y + d.2)

/-- `Bender.check_for_obstacle`: `True` if the neighbouring cell in the given
direction is in the active obstacle set. -/
def check_for_obstacle (s : BState) (compass : Char) : Except BErr Bool := do
  let c ← get_cell s compass
  pure (decide (c ∈ obstacles s))

/-- `Bender.move`: apply the direction delta to the position, append the long
name to the history and record the current direction. -/
def move (s : BState) (compass : Char) : Except BErr BState :=
  match directionsMap compass with
  | none => Except.error BErr.keyError
  | some d =>
    match longName compass with
    | none => Except.error BErr.keyError
    | some nm =>
      Except.ok { s with x := s.x + d.1, y := s.y + d.2,
                         history := s.history ++ [nm],
                         currentDirection := compass }

/-- `Bender.check_beer`: flip the beer flag on a beer cell. -/
def check_beer (s : BState) : Except BErr BState := do
  let c ← currentCell s
  pure (if c = 'B' then { s with inBeer := !s.inBeer } else s)

/-- `Bender.check_inverter`: reverse the priority list on an inverter cell. -/
def check_inverter (s : BState) : Except BErr BState := do
  let c ← currentCell s
  pure (if c = 'I' then { s with priorities := s.priorities.reverse } else s)

/-- `Bender.check_teleport`: on a teleporter cell, jump to the paired
coordinate.  `self.teleport` being `None` raises `TypeError`; a missing key
raises `KeyError`. -/
def check_teleport (s : BState) : Except BErr BState := do
  let c ← currentCell s
  if c = 'T' then
    match s.teleport with
    | none => Except.error BErr.typeError
    | some d =>
      match dictLookup d (s.x, s.y) with
      | none => Except.error BErr.keyError
      | some p => pure { s with x := p.1, y := p.2 }
  else
    pure s

/-- `Bender.check_destroy_obstacle`: standing on a breakable obstacle while in
beer state erases that cell to a space. -/
def check_destroy_obstacle (s : BState) : Except BErr BState := do
  let c ← currentCell s
  if c = 'X' ∧ s.inBeer = true then do
    let rows2 ← pySet2 s.rows s.x s.y ' '
    pure { s with rows := rows2 }
  else
    pure s

/-- `Bender.check_current_cell`: beer, inverter, teleport, destroy, in that
order. -/
def check_current_cell (s : BState) : Except BErr BState := do
  let s1 ← check_beer s
  let s2 ← check_inverter s1
  let s3 ← check_teleport s2
  check_destroy_obstacle s3

/-- `Bender.on_forced_direction`: the lowercased current-cell code is a key of
the `directions` dict. -/
def on_forced_direction (s : BState) : Except BErr Bool := do
  let c ← currentCell s
  pure (directionsMap c.toLower).isSome

/-- `Bender.move_in_forced_direction`: move in the direction named by the
current cell. -/
def move_in_forced_direction (s : BState) : Except BErr BState := do
  let c ← currentCell s
  move s c.toLower

/-- The loop body of `Bender.move_via_priorities` over a remaining suffix of
the priority list. -/
def move_via_priorities_aux (s : BState) : List Char → Except BErr BState
  | [] => Except.error BErr.trapped
  | d :: ds => do
    let b ← check_for_obstacle s d
    if b then move_via_priorities_aux s ds else move s d

/-- `Bender.move_via_priorities`: move in the first unobstructed direction of
the priority list, raising `BenderTrapped` if all are blocked. -/
def move_via_priorities (s : BState) : Except BErr BState :=
  move_via_priorities_aux s s.priorities

/-- `Bender.go`: apply the current cell's entry effects, then forced-direction
check, then continue-straight check, then priority fallback. -/
def go (s : BState) : Except BErr BState := do
  let t ← check_current_cell s
  let f ← on_forced_direction t
  if f then
    move_in_forced_direction t
  else do
    let b ← check_for_obstacle t t.currentDirection
    if b then move_via_priorities t else move t t.currentDirection

/-- `Bender.finished`: on the booth cell, or the history longer than
`TIMEOUT`. -/
def finished (s : BState) : Except BErr Bool := do
  let c ← currentCell s
  if c = '$' then pure true else pure (decide (s.history.length > TIMEOUT))

/-- The coordinates of all `'T'` cells of one row (row index `i`), in column
order. -/
def rowTeleports (i : Nat) (row : List Char) : List (Int × Int) :=
  (row.enum.filter (fun p => p.2 = 'T')).map (fun p => ((i : Int), (p.1 : Int)))

/-- The scan loop of `Bender.get_teleporters`: all teleporter coordinates in
row-major order. -/
def teleportLocations (rows : List (List Char)) : List (Int × Int) :=
  (rows.enum.map (fun p => rowTeleports p.1 p.2)).flatten

/-- `Bender.get_teleporters`: build the two-entry dict from the first two
teleporter locations; the bare `except` turns the `IndexError` of fewer than
two locations into `None`. -/
def get_teleporters (rows : List (List Char)) :
    Option (List ((Int × Int) × (Int × Int))) :=
  match teleportLocations rows with
  | a :: b :: _ => some [(a, b), (b, a)]
  | _ => none

/-- The inner loop of `Bender.get_initial_cell` over one row. -/
def findBenderInRow (i : Nat) (row : List Char) : Option (Int × Int) :=
  match row.enum.find? (fun p => p.2 = '@') with
  | some p => some ((i : Int), (p.1 : Int))
  | none => none

/-- The row loop of `Bender.get_initial_cell`, carrying the row index. -/
def get_initial_cell_aux : Nat → List (List Char) → Option (Int × Int)
  | _, [] => none
  | i, row :: rest =>
    match findBenderInRow i row with
    | some p => some p
    | none => get_initial_cell_aux (i + 1) rest

/-- `Bender.get_initial_cell`: the first cell containing the `'@'` marker, or
`None` (the method falls off the end) when there is none. -/
def get_initial_cell (rows : List (List Char)) : Option (Int × Int) :=
  get_initial_cell_aux 0 rows

/-- `Bender.__init__`: locate the start cell (unpacking `None` raises
`TypeError` when absent), build the teleporter dict, and set the initial
state. -/
def benderInit (rows : List (List Char)) : Except BErr BState :=
  match get_initial_cell rows with
  | none => Except.error BErr.typeError
  | some p =>
    Except.ok { rows := rows, x := p.1, y := p.2,
                teleport := get_teleporters rows,
                history := [], currentDirection := 's',
                priorities := prioritiesDefault, inBeer := false }

/-- The driver loop `while not bender.finished: bender.go()`, bounded by
fuel (the source loops unboundedly; `outOfFuel` marks exhaustion). -/
def runSteps : Nat → BState → Except BErr BState
  | 0, _ => Except.error BErr.outOfFuel
  | n + 1, s => do
    let f ← finished s
    if f then pure s else do
      let t ← go s
      runSteps n t

/-- The obstacle test, closed-form: a cell blocks exactly when it is the
unbreakable obstacle, or the breakable obstacle while the beer flag is
off. -/
def blockedChar (c : Char) (beer : Bool) : Bool :=
  c = '#' || (c = 'X' && !beer)

/-- The entry-effect pipeline as the specification words it, to be compared
with `check_current_cell`: read the occupied cell once, then in fixed order
(a) a beer cell flips the pass-through flag, (b) an inverter cell reverses
the priority list, (c) a teleporter cell relocates the position to the paired
coordinate, and (d) only then, if the possibly post-teleport current cell is
a breakable obstacle while the flag is set, erase it to empty.  The teleport
destination's own beer/inverter/teleport effects are deliberately never
re-evaluated here.  `specTeleportStep` is its step (c): a teleporter cell
relocates the walker to the paired coordinate. -/
def specTeleportStep (c : Char) (s : BState) : Except BErr BState :=
  if c = 'T' then
    match s.teleport with
    | none => Except.error BErr.typeError
    | some d =>
      match dictLookup d (s.x, s.y) with
      | none => Except.error BErr.keyError
      | some p => pure { s with x := p.1, y := p.2 }
  else
    pure s

/-- Spec wording, step (d): if the (possibly post-teleport) current cell is a
breakable obstacle while the flag is set, erase that cell to empty. -/
def specDestroyStep (s : BState) : Except BErr BState := do
  let c2 ← currentCell s
  if c2 = 'X' ∧ s.inBeer = true then do
    let rows2 ← pySet2 s.rows s.x s.y ' '
    pure { s with rows := rows2 }
  else
    pure s

/-- The spec-ordered entry-effect pipeline (a)-(d), built from the stages
above; compared against `check_current_cell` by claim C2. -/
def entryEffectsSpec (s : BState) : Except BErr BState := do
  let c ← currentCell s
  let sA := if c = 'B' then { s with inBeer := !s.inBeer } else s
  let sB := if c = 'I' then { sA with priorities := sA.priorities.reverse } else sA
  let sC ← specTeleportStep c sB
  specDestroyStep sC

deriving instance DecidableEq for Except

/-! ## Basic lemmas about the `Except` monad and the embedding -/

theorem ok_bind {α β : Type} (a : α) (f : α → Except BErr β) :
    (Except.ok a : Except BErr α) >>= f = f a := rfl

theorem error_bind {α β : Type} (e : BErr) (f : α → Except BErr β) :
    (Except.error e : Except BErr α) >>= f = Except.error e := rfl

theorem pure_eq_ok {α : Type} (a : α) : (pure a : Except BErr α) = Except.ok a := rfl

theorem bind_eq_ok {α β : Type} (x : Except BErr α) (f : α → Except BErr β) (b : β) :
    x >>= f = Except.ok b ↔ ∃ a, x = Except.ok a ∧ f a = Except.ok b := by
  cases x with
  | error e => simp [error_bind]
  | ok a => simp [ok_bind]

theorem get_teleporters_of_length_one (rows : List (List Char))
    (h : (teleportLocations rows).length = 1) : get_teleporters rows = none := by
  unfold get_teleporters
  cases hl : teleportLocations rows with
  | nil => rfl
  | cons a tl =>
    cases tl with
    | nil => rfl
    | cons b tl2 => rw [hl] at h; simp at h

/-! ## Structural lemmas for the per-cell check functions -/

theorem check_beer_eq (s : BState) (c : Char) (hc : currentCell s = Except.ok c) :
    check_beer s = Except.ok (if c = 'B' then { s with inBeer := !s.inBeer } else s) := by
  unfold check_beer
  rw [hc]
  rfl

theorem check_inverter_eq (s : BState) (c : Char) (hc : currentCell s = Except.ok c) :
    check_inverter s =
      Except.ok (if c = 'I' then { s with priorities := s.priorities.reverse } else s) := by
  unfold check_inverter
  rw [hc]
  rfl

theorem check_teleport_not_T (s : BState) (c : Char) (hc : currentCell s = Except.ok c)
    (h : c ≠ 'T') : check_teleport s = Except.ok s := by
  unfold check_teleport
  rw [hc, ok_bind, if_neg h]
  rfl

theorem check_teleport_none (s : BState) (hc : currentCell s = Except.ok 'T')
    (ht : s.teleport = none) : check_teleport s = Except.error BErr.typeError := by
  unfold check_teleport
  rw [hc, ok_bind, if_pos rfl, ht]

theorem check_destroy_not (s : BState) (c : Char) (hc : currentCell s = Except.ok c)
    (h : ¬(c = 'X' ∧ s.inBeer = true)) : check_destroy_obstacle s = Except.ok s := by
  unfold check_destroy_obstacle
  rw [hc, ok_bind, if_neg h]
  rfl

theorem check_destroy_fire (s : BState) (hc : currentCell s = Except.ok 'X')
    (hb : s.inBeer = true) :
    check_destroy_obstacle s =
      (pySet2 s.rows s.x s.y ' ') >>= fun r => Except.ok { s with rows := r } := by
  unfold check_destroy_obstacle
  rw [hc, ok_bind, if_pos ⟨rfl, hb⟩]
  rfl

/-! ## Claim theorems -/

/-- C6 counterexample: on the grid `[['@', 'T', '$']]`, which has a start
marker and exactly one teleporter marker, construction does not fail: it
succeeds with the teleport index absent.  This refutes the claim that
construction fails when the grid has exactly one teleporter marker. -/
theorem C6_counterexample :
    (teleportLocations [['@', 'T', '$']]).length = 1 ∧
    benderInit [['@', 'T', '$']] =
      Except.ok ⟨[['@', 'T', '$']], 0, 0, none, [], 's', prioritiesDefault, false⟩ := by
  decide

/-- C6 (amended): construction fails immediately when the grid has no start
marker; when the grid has a start cell and exactly one teleporter marker,
construction succeeds with the teleport index absent (teleportation
disabled). -/
theorem C6_construction_errors :
    (∀ rows, get_initial_cell rows = none → benderInit rows = Except.error BErr.typeError) ∧
    (∀ rows x y, get_initial_cell rows = some (x, y) →
      (teleportLocations rows).length = 1 →
      benderInit rows = Except.ok ⟨rows, x, y, none, [], 's', prioritiesDefault, false⟩) := by
  constructor
  · intro rows h
    unfold benderInit
    rw [h]
  · intro rows x y h hlen
    unfold benderInit
    rw [h, get_teleporters_of_length_one rows hlen]

/-- Witness for C6: the amended statement applied to the concrete grids
`[[' ']]` (no start marker) and `[['@', 'T']]` (exactly one teleporter). -/
theorem C6_construction_errors_witness :
    benderInit [[' ']] = Except.error BErr.typeError ∧
    benderInit [['@', 'T']] =
      Except.ok ⟨[['@', 'T']], 0, 0, none, [], 's', prioritiesDefault, false⟩ :=
  ⟨C6_construction_errors.1 [[' ']] (by decide),
   C6_construction_errors.2 [['@', 'T']] 0 0 (by decide) (by decide)⟩

/-- C10: with a start cell and exactly one teleporter marker on the board,
construction succeeds with the teleport index absent; but a step taken while
the walker occupies a teleporter cell with the index absent fails with the
`TypeError` of subscripting `None` — the lone teleporter tile is not
passable-and-inert. -/
theorem C10_lone_teleporter (rows : List (List Char)) (x y : Int)
    (h1 : get_initial_cell rows = some (x, y))
    (h2 : (teleportLocations rows).length = 1) :
    benderInit rows = Except.ok ⟨rows, x, y, none, [], 's', prioritiesDefault, false⟩ ∧
    (∀ t : BState, t.teleport = none → currentCell t = Except.ok 'T' →
      go t = Except.error BErr.typeError) := by
  constructor
  · unfold benderInit
    rw [h1, get_teleporters_of_length_one rows h2]
  · intro t ht hc
    have hB : check_beer t = Except.ok t := by
      rw [check_beer_eq t 'T' hc]
      rfl
    have hI : check_inverter t = Except.ok t := by
      rw [check_inverter_eq t 'T' hc]
      rfl
    have hT : check_teleport t = Except.error BErr.typeError :=
      check_teleport_none t hc ht
    unfold go check_current_cell
    rw [hB, ok_bind, hI, ok_bind, hT, error_bind, error_bind]

/-- Witness for C10: the concrete grid `[['@', 'T']]`, and the state standing
on its lone teleporter cell, from which `go` raises `TypeError`. -/
theorem C10_lone_teleporter_witness :
    benderInit [['@', 'T']] =
      Except.ok ⟨[['@', 'T']], 0, 0, none, [], 's', prioritiesDefault, false⟩ ∧
    go ⟨[['@', 'T']], 0, 1, none, [], 's', prioritiesDefault, false⟩ =
      Except.error BErr.typeError :=
  ⟨(C10_lone_teleporter [['@', 'T']] 0 0 (by decide) (by decide)).1,
   (C10_lone_teleporter [['@', 'T']] 0 0 (by decide) (by decide)).2
     ⟨[['@', 'T']], 0, 1, none, [], 's', prioritiesDefault, false⟩ rfl (by decide)⟩

/-- The 5×5 scenario grid: unbreakable border, start at (1,1), goal at
(3,3), all interior cells empty. -/
def c7grid : List (List Char) :=
  [['#', '#', '#', '#', '#'],
   ['#', '@', ' ', ' ', '#'],
   ['#', ' ', ' ', ' ', '#'],
   ['#', ' ', ' ', '$', '#'],
   ['#', '#', '#', '#', '#']]

/-- C7: on the 5×5 bordered grid with start (1,1) and goal (3,3), the driver
loop reaches the goal (the completion predicate holds at the final state,
whose cell is the goal marker) and the move history is exactly
`[SOUTH, SOUTH, EAST, EAST]`. -/
theorem C7_scenario_run :
    Except.bind (benderInit c7grid) (runSteps 10) =
      Except.ok ⟨c7grid, 3, 3, none, ["SOUTH", "SOUTH", "EAST", "EAST"], 'e',
                 prioritiesDefault, false⟩ ∧
    Except.bind (Except.bind (benderInit c7grid) (runSteps 10)) finished =
      Except.ok true ∧
    Except.bind (Except.bind (benderInit c7grid) (runSteps 10)) currentCell =
      Except.ok '$' := by
  decide

/-! ## History preservation through the entry effects, and the step increment -/

theorem check_beer_history (s m : BState) (h : check_beer s = Except.ok m) :
    m.history = s.history := by
  unfold check_beer at h
  cases hc : currentCell s with
  | error e => rw [hc, error_bind] at h; exact Except.noConfusion h
  | ok c =>
    rw [hc, ok_bind, pure_eq_ok] at h
    injection h with h2
    subst h2
    split <;> rfl

theorem check_inverter_history (s m : BState) (h : check_inverter s = Except.ok m) :
    m.history = s.history := by
  unfold check_inverter at h
  cases hc : currentCell s with
  | error e => rw [hc, error_bind] at h; exact Except.noConfusion h
  | ok c =>
    rw [hc, ok_bind, pure_eq_ok] at h
    injection h with h2
    subst h2
    split <;> rfl

theorem check_teleport_history (s m : BState) (h : check_teleport s = Except.ok m) :
    m.history = s.history := by
  unfold check_teleport at h
  cases hc : currentCell s with
  | error e => rw [hc, error_bind] at h; exact Except.noConfusion h
  | ok c =>
    rw [hc, ok_bind] at h
    split at h
    · split at h
      · exact Except.noConfusion h
      · split at h
        · exact Except.noConfusion h
        · rw [pure_eq_ok] at h; injection h with h2; subst h2; rfl
    · rw [pure_eq_ok] at h; injection h with h2; subst h2; rfl

theorem check_destroy_history (s m : BState) (h : check_destroy_obstacle s = Except.ok m) :
    m.history = s.history := by
  unfold check_destroy_obstacle at h
  cases hc : currentCell s with
  | error e => rw [hc, error_bind] at h; exact Except.noConfusion h
  | ok c =>
    rw [hc, ok_bind] at h
    by_cases hX : c = 'X' ∧ s.inBeer = true
    · rw [if_pos hX] at h
      obtain ⟨r, hr, h2⟩ := (bind_eq_ok _ _ _).mp h
      rw [pure_eq_ok] at h2
      injection h2 with h3
      subst h3
      rfl
    · rw [if_neg hX, pure_eq_ok] at h; injection h with h2; subst h2; rfl

theorem check_current_cell_history (s m : BState)
    (h : check_current_cell s = Except.ok m) : m.history = s.history := by
  unfold check_current_cell at h
  obtain ⟨s1, h1, h⟩ := (bind_eq_ok _ _ _).mp h
  obtain ⟨s2, h2, h⟩ := (bind_eq_ok _ _ _).mp h
  obtain ⟨s3, h3, h⟩ := (bind_eq_ok _ _ _).mp h
  rw [check_destroy_history s3 m h, check_teleport_history s2 s3 h3,
      check_inverter_history s1 s2 h2, check_beer_history s s1 h1]

theorem move_history_len (s : BState) (d : Char) (t : BState)
    (h : move s d = Except.ok t) : t.history.length = s.history.length + 1 := by
  unfold move at h
  cases hd : directionsMap d with
  | none => rw [hd] at h; exact Except.noConfusion h
  | some dd =>
    rw [hd] at h
    cases hn : longName d with
    | none => rw [hn] at h; exact Except.noConfusion h
    | some nm =>
      rw [hn] at h
      injection h with h2
      subst h2
      simp

theorem mvp_aux_history (s t : BState) :
    ∀ l : List Char, move_via_priorities_aux s l = Except.ok t →
      t.history.length = s.history.length + 1 := by
  intro l
  induction l with
  | nil => intro h; exact Except.noConfusion h
  | cons d ds ih =>
    intro h
    unfold move_via_priorities_aux at h
    obtain ⟨b, hb, h2⟩ := (bind_eq_ok _ _ _).mp h
    cases b with
    | true => rw [if_pos rfl] at h2; exact ih h2
    | false => rw [if_neg Bool.false_ne_true] at h2; exact move_history_len s d t h2

theorem go_history_succ (u t : BState) (h : go u = Except.ok t) :
    t.history.length = u.history.length + 1 := by
  unfold go at h
  obtain ⟨m, hm, h2⟩ := (bind_eq_ok _ _ _).mp h
  obtain ⟨f, hf, h3⟩ := (bind_eq_ok _ _ _).mp h2
  have hmh : m.history = u.history := check_current_cell_history u m hm
  cases f with
  | true =>
    rw [if_pos rfl] at h3
    unfold move_in_forced_direction at h3
    obtain ⟨c, hc, h4⟩ := (bind_eq_ok _ _ _).mp h3
    rw [move_history_len m _ t h4, hmh]
  | false =>
    rw [if_neg Bool.false_ne_true] at h3
    obtain ⟨b, hb, h4⟩ := (bind_eq_ok _ _ _).mp h3
    cases b with
    | true =>
      rw [if_pos rfl] at h4
      unfold move_via_priorities at h4
      rw [mvp_aux_history m t _ h4, hmh]
    | false =>
      rw [if_neg Bool.false_ne_true] at h4
      rw [move_history_len m _ t h4, hmh]

/-- C4: the completion predicate holds exactly when the occupied cell is the
goal marker or the history is longer than the 8000-step ceiling; with a
non-goal cell it is exactly "length at least 8001"; and each successful step
grows the history by exactly one, so in a run never occupying the goal the
predicate first holds at history length 8001. -/
theorem C4_finished_predicate (s : BState) (c : Char)
    (hc : currentCell s = Except.ok c) :
    finished s = Except.ok (decide (c = '$') || decide (s.history.length > TIMEOUT)) ∧
    (c ≠ '$' → (finished s = Except.ok true ↔ TIMEOUT + 1 ≤ s.history.length)) ∧
    (∀ u t : BState, go u = Except.ok t → t.history.length = u.history.length + 1) := by
  refine ⟨?_, ?_, go_history_succ⟩
  · unfold finished
    rw [hc, ok_bind]
    by_cases h : c = '$'
    · rw [if_pos h, pure_eq_ok]
      simp [h]
    · rw [if_neg h, pure_eq_ok]
      simp [h]
  · intro h
    unfold finished
    rw [hc, ok_bind, if_neg h, pure_eq_ok]
    constructor
    · intro h2
      injection h2 with h3
      have h4 := of_decide_eq_true h3
      omega
    · intro h2
      have h3 : s.history.length > TIMEOUT := by omega
      simp [h3]

/-- A non-goal state whose history already has length 8001. -/
def c4stateHigh : BState :=
  ⟨[[' ']], 0, 0, none, List.replicate (TIMEOUT + 1) "SOUTH", 's', prioritiesDefault, false⟩

/-- A non-goal state whose history has length exactly 8000. -/
def c4stateLow : BState :=
  ⟨[[' ']], 0, 0, none, List.replicate TIMEOUT "SOUTH", 's', prioritiesDefault, false⟩

/-- Witness for C4: at a non-goal cell, a history of length 8001 makes the
predicate hold and one of length 8000 does not. -/
theorem C4_finished_predicate_witness :
    finished c4stateHigh = Except.ok true ∧ finished c4stateLow ≠ Except.ok true := by
  constructor
  · exact ((C4_finished_predicate c4stateHigh ' ' (by decide)).2.1 (by decide)).mpr
      (by simp [c4stateHigh])
  · intro hcon
    have h2 := ((C4_finished_predicate c4stateLow ' ' (by decide)).2.1 (by decide)).mp hcon
    rw [show c4stateLow.history = List.replicate TIMEOUT "SOUTH" from rfl,
        List.length_replicate] at h2
    omega

/-! ## Inverter involution -/

theorem reverse_iterate_two_mul {α : Type} (k : Nat) (l : List α) :
    (fun l : List α => l.reverse)^[2 * k] l = l := by
  induction k generalizing l with
  | zero => rfl
  | succ m ih =>
    have h2 : 2 * (m + 1) = 2 * m + 1 + 1 := by ring
    rw [h2, Function.iterate_succ_apply, Function.iterate_succ_apply]
    show (fun l : List α => l.reverse)^[2 * m] l.reverse.reverse = l
    rw [List.reverse_reverse]
    exact ih l

/-- C8: each inverter-cell entry replaces the priority list by its reverse,
and reversal being an involution, an even number of reversals of the default
priority order restores it while an odd number yields its reverse. -/
theorem C8_inverter_involution (s : BState) (c : Char)
    (hc : currentCell s = Except.ok c) :
    check_inverter s =
      Except.ok (if c = 'I' then { s with priorities := s.priorities.reverse } else s) ∧
    (∀ n : Nat, n % 2 = 0 →
      (fun l : List Char => l.reverse)^[n] prioritiesDefault = prioritiesDefault) ∧
    (∀ n : Nat, n % 2 = 1 →
      (fun l : List Char => l.reverse)^[n] prioritiesDefault = prioritiesDefault.reverse) := by
  refine ⟨check_inverter_eq s c hc, ?_, ?_⟩
  · intro n hn
    obtain ⟨k, hk⟩ : ∃ k, n = 2 * k := ⟨n / 2, by omega⟩
    subst hk
    exact reverse_iterate_two_mul k prioritiesDefault
  · intro n hn
    obtain ⟨k, hk⟩ : ∃ k, n = 2 * k + 1 := ⟨n / 2, by omega⟩
    subst hk
    rw [Function.iterate_succ_apply]
    exact reverse_iterate_two_mul k prioritiesDefault.reverse

/-- A state standing on an inverter cell, with the default priority order. -/
def c8state : BState := ⟨[['I']], 0, 0, none, [], 's', prioritiesDefault, false⟩

/-- Witness for C8: entering the inverter cell of `c8state` reverses the
default priority order, two reversals restore it, one yields the reverse. -/
theorem C8_inverter_involution_witness :
    check_inverter c8state =
      Except.ok ⟨[['I']], 0, 0, none, [], 's', ['w', 'n', 'e', 's'], false⟩ ∧
    (fun l : List Char => l.reverse)^[2] prioritiesDefault = prioritiesDefault ∧
    (fun l : List Char => l.reverse)^[1] prioritiesDefault = prioritiesDefault.reverse := by
  refine ⟨?_, (C8_inverter_involution c8state 'I' rfl).2.1 2 rfl,
          (C8_inverter_involution c8state 'I' rfl).2.2 1 rfl⟩
  rw [(C8_inverter_involution c8state 'I' rfl).1]
  decide

/-! ## The obstacle test and the step decision -/

theorem check_for_obstacle_eq (s : BState) (d c : Char)
    (h : get_cell s d = Except.ok c) :
    check_for_obstacle s d = Except.ok (blockedChar c s.inBeer) := by
  unfold check_for_obstacle
  rw [h, ok_bind, pure_eq_ok]
  congr 1
  unfold obstacles blockedChar
  cases hb : s.inBeer <;> by_cases h1 : c = '#' <;> by_cases h2 : c = 'X' <;>
    simp_all

theorem go_eq_forced (s t : BState) (c : Char)
    (hcc : check_current_cell s = Except.ok t)
    (hc : currentCell t = Except.ok c)
    (hf : (directionsMap c.toLower).isSome = true) :
    go s = move t c.toLower := by
  have hofd : on_forced_direction t = Except.ok true := by
    unfold on_forced_direction
    rw [hc, ok_bind, hf]
    rfl
  unfold go
  rw [hcc]
  simp only [ok_bind]
  rw [hofd]
  simp only [ok_bind, if_pos]
  unfold move_in_forced_direction
  rw [hc]
  simp only [ok_bind]

theorem go_eq_not_forced (s t : BState) (c : Char)
    (hcc : check_current_cell s = Except.ok t)
    (hc : currentCell t = Except.ok c)
    (hf : directionsMap c.toLower = none) :
    go s = (check_for_obstacle t t.currentDirection >>= fun b =>
      if b then move_via_priorities t else move t t.currentDirection) := by
  have hofd : on_forced_direction t = Except.ok false := by
    unfold on_forced_direction
    rw [hc, ok_bind, hf]
    rfl
  unfold go
  rw [hcc]
  simp only [ok_bind]
  rw [hofd]
  simp only [ok_bind, Bool.false_eq_true, if_false]

theorem mvp_aux_first_unblocked (t : BState) (d : Char) (cd : Char) (l2 : List Char)
    (hd : get_cell t d = Except.ok cd) (hbd : blockedChar cd t.inBeer = false) :
    ∀ l1 : List Char,
      (∀ e ∈ l1, ∃ ce, get_cell t e = Except.ok ce ∧ blockedChar ce t.inBeer = true) →
      move_via_priorities_aux t (l1 ++ d :: l2) = move t d := by
  intro l1
  induction l1 with
  | nil =>
    intro _
    show move_via_priorities_aux t (d :: l2) = move t d
    unfold move_via_priorities_aux
    rw [check_for_obstacle_eq t d cd hd]
    simp only [ok_bind, hbd, Bool.false_eq_true, if_false]
  | cons e es ih =>
    intro hall
    obtain ⟨ce, hce, hbe⟩ := hall e (List.mem_cons_self e es)
    show move_via_priorities_aux t (e :: (es ++ d :: l2)) = move t d
    unfold move_via_priorities_aux
    rw [check_for_obstacle_eq t e ce hce]
    simp only [ok_bind, hbe, if_true]
    exact ih (fun e2 he2 => hall e2 (List.mem_cons_of_mem e he2))

theorem mvp_aux_all_blocked (t : BState) :
    ∀ l : List Char,
      (∀ e ∈ l, ∃ ce, get_cell t e = Except.ok ce ∧ blockedChar ce t.inBeer = true) →
      move_via_priorities_aux t l = Except.error BErr.trapped := by
  intro l
  induction l with
  | nil => intro _; rfl
  | cons e es ih =>
    intro hall
    obtain ⟨ce, hce, hbe⟩ := hall e (List.mem_cons_self e es)
    unfold move_via_priorities_aux
    rw [check_for_obstacle_eq t e ce hce]
    simp only [ok_bind, hbe, if_true]
    exact ih (fun e2 he2 => hall e2 (List.mem_cons_of_mem e he2))

/-- C1: after the entry effects, on a non-forced cell: a direction is blocked
exactly when its neighbouring cell is the unbreakable obstacle, or the
breakable obstacle with the beer flag off; if the current direction is not
blocked the walker moves in it, otherwise it falls back to the priority scan,
which moves in the first direction of the current priority list that is not
blocked. -/
theorem C1_step_decision (s t : BState) (c cc : Char)
    (hcc : check_current_cell s = Except.ok t)
    (hc : currentCell t = Except.ok c)
    (hnf : directionsMap c.toLower = none)
    (hcur : get_cell t t.currentDirection = Except.ok cc) :
    (∀ d e, get_cell t d = Except.ok e →
      check_for_obstacle t d = Except.ok (blockedChar e t.inBeer)) ∧
    (blockedChar cc t.inBeer = false → go s = move t t.currentDirection) ∧
    (blockedChar cc t.inBeer = true → go s = move_via_priorities t) ∧
    (∀ l1 d l2 cd, t.priorities = l1 ++ d :: l2 →
      (∀ e ∈ l1, ∃ ce, get_cell t e = Except.ok ce ∧ blockedChar ce t.inBeer = true) →
      get_cell t d = Except.ok cd → blockedChar cd t.inBeer = false →
      move_via_priorities t = move t d) := by
  have hgo := go_eq_not_forced s t c hcc hc hnf
  refine ⟨fun d e he => check_for_obstacle_eq t d e he, ?_, ?_, ?_⟩
  · intro hb
    rw [hgo, check_for_obstacle_eq t t.currentDirection cc hcur]
    simp only [ok_bind, hb, Bool.false_eq_true, if_false]
  · intro hb
    rw [hgo, check_for_obstacle_eq t t.currentDirection cc hcur]
    simp only [ok_bind, hb, if_true]
  · intro l1 d l2 cd hp hall hd hbd
    unfold move_via_priorities
    rw [hp]
    exact mvp_aux_first_unblocked t d cd l2 hd hbd l1 hall

/-- A 3×4 grid walling the walker in on the south side, with an opening east. -/
def c1state : BState :=
  ⟨[['#', '#', '#', '#'], ['#', '@', ' ', '#'], ['#', '#', '#', '#']],
   1, 1, none, [], 's', prioritiesDefault, false⟩

/-- Witness for C1: from `c1state` the current direction (south) is blocked,
and the step moves in the first unobstructed priority direction, east. -/
theorem C1_step_decision_witness :
    go c1state = move c1state 'e' ∧
    check_for_obstacle c1state 's' = Except.ok true := by
  have h := C1_step_decision c1state c1state '@' '#' (by decide) (by decide)
    (by decide) (by decide)
  constructor
  · rw [h.2.2.1 (by decide)]
    refine h.2.2.2 ['s'] 'e' ['n', 'w'] ' ' (by decide) ?_ (by decide) (by decide)
    intro e he
    have he2 : e = 's' := by simpa using he
    subst he2
    exact ⟨'#', by decide, by decide⟩
  · exact h.1 's' '#' (by decide)

/-- C3: standing (after entry effects) on a cell whose code names a direction
case-insensitively, the step is a move in exactly that direction, with no
obstacle test: the position is displaced by the direction's delta and its
long name appended to the history unconditionally. -/
theorem C3_forced_move (s t : BState) (c : Char) (dx dy : Int)
    (hcc : check_current_cell s = Except.ok t)
    (hc : currentCell t = Except.ok c)
    (hdir : directionsMap c.toLower = some (dx, dy)) :
    go s = move t c.toLower ∧
    ∃ nm, longName c.toLower = some nm ∧
      go s = Except.ok { t with x := t.x + dx, y := t.y + dy,
                                history := t.history ++ [nm],
                                currentDirection := c.toLower } := by
  have hgo : go s = move t c.toLower :=
    go_eq_forced s t c hcc hc (by rw [hdir]; rfl)
  refine ⟨hgo, ?_⟩
  unfold directionsMap at hdir
  by_cases h1 : c.toLower = 'w'
  · rw [h1] at hdir hgo ⊢
    rw [if_pos rfl] at hdir
    injection hdir with hd2
    injection hd2 with hdx hdy
    subst hdx
    subst hdy
    exact ⟨"WEST", rfl, by rw [hgo]; rfl⟩
  · rw [if_neg h1] at hdir
    by_cases h2 : c.toLower = 'n'
    · rw [h2] at hdir hgo ⊢
      rw [if_pos rfl] at hdir
      injection hdir with hd2
      injection hd2 with hdx hdy
      subst hdx
      subst hdy
      exact ⟨"NORTH", rfl, by rw [hgo]; rfl⟩
    · rw [if_neg h2] at hdir
      by_cases h3 : c.toLower = 'e'
      · rw [h3] at hdir hgo ⊢
        rw [if_pos rfl] at hdir
        injection hdir with hd2
        injection hd2 with hdx hdy
        subst hdx
        subst hdy
        exact ⟨"EAST", rfl, by rw [hgo]; rfl⟩
      · rw [if_neg h3] at hdir
        by_cases h4 : c.toLower = 's'
        · rw [h4] at hdir hgo ⊢
          rw [if_pos rfl] at hdir
          injection hdir with hd2
          injection hd2 with hdx hdy
          subst hdx
          subst hdy
          exact ⟨"SOUTH", rfl, by rw [hgo]; rfl⟩
        · rw [if_neg h4] at hdir
          exact Option.noConfusion hdir

/-- A state standing on an `'N'` forced-direction cell whose target cell,
directly north, is an unbreakable obstacle. -/
def c3state : BState :=
  ⟨[['#', '#', '#'], ['#', 'N', '#'], ['#', '#', '#']],
   1, 1, none, [], 's', prioritiesDefault, false⟩

/-- Witness for C3: the uppercase forced-direction cell `'N'` forces a move
north even though the target cell is the unbreakable obstacle `'#'`. -/
theorem C3_forced_move_witness :
    go c3state = move c3state 'N'.toLower ∧
    get_cell c3state 'n' = Except.ok '#' :=
  ⟨(C3_forced_move c3state c3state 'N' (-1) 0 (by decide) (by decide) (by decide)).1,
   by decide⟩

/-- C5: when, after the entry effects and on a non-forced cell, the current
direction and every direction of the priority list are blocked, the step
raises the dedicated trapped error: no move is executed and the failure is
not absorbed. -/
theorem C5_trapped_error (s t : BState) (c cc : Char)
    (hcc : check_current_cell s = Except.ok t)
    (hc : currentCell t = Except.ok c)
    (hnf : directionsMap c.toLower = none)
    (hcur : get_cell t t.currentDirection = Except.ok cc)
    (hb : blockedChar cc t.inBeer = true)
    (hall : ∀ e ∈ t.priorities,
      ∃ ce, get_cell t e = Except.ok ce ∧ blockedChar ce t.inBeer = true) :
    go s = Except.error BErr.trapped := by
  rw [go_eq_not_forced s t c hcc hc hnf,
      check_for_obstacle_eq t t.currentDirection cc hcur]
  simp only [ok_bind, hb, if_true]
  exact mvp_aux_all_blocked t t.priorities hall

/-- A state walled in by unbreakable obstacles on all four sides. -/
def c5state : BState :=
  ⟨[['#', '#', '#'], ['#', '@', '#'], ['#', '#', '#']],
   1, 1, none, [], 's', prioritiesDefault, false⟩

/-- Witness for C5: from the fully walled-in `c5state`, the step raises
exactly the trapped error. -/
theorem C5_trapped_error_witness :
    go c5state = Except.error BErr.trapped := by
  refine C5_trapped_error c5state c5state '@' '#' (by decide) (by decide)
    (by decide) (by decide) (by decide) ?_
  intro e he
  have he2 : e = 's' ∨ e = 'e' ∨ e = 'n' ∨ e = 'w' := by
    simpa [c5state, prioritiesDefault] using he
  rcases he2 with rfl | rfl | rfl | rfl <;> exact ⟨'#', by decide, by decide⟩

/-! ## Entry-effect ordering -/

theorem currentCell_if_beer (s : BState) (c : Char) :
    currentCell (if c = 'B' then { s with inBeer := !s.inBeer } else s) =
      currentCell s := by
  split <;> rfl

theorem currentCell_if_inv (s : BState) (c : Char) (l : List Char) :
    currentCell (if c = 'I' then { s with priorities := l } else s) =
      currentCell s := by
  split <;> rfl

theorem check_teleport_eq_spec (u : BState) (c : Char)
    (hc : currentCell u = Except.ok c) :
    check_teleport u = specTeleportStep c u := by
  unfold check_teleport specTeleportStep
  rw [hc]
  rfl

theorem check_destroy_eq_spec (u : BState) :
    check_destroy_obstacle u = specDestroyStep u := by
  unfold check_destroy_obstacle specDestroyStep
  rfl

/-- C2: the entry-effect phase of a step equals the spec-ordered pipeline:
read the occupied cell, flip the flag on beer, reverse the priorities on
inverter, teleport to the paired coordinate on a teleporter, and only then
destroy a breakable obstacle at the possibly post-teleport position; the
destination's own beer/inverter/teleport effects are not re-evaluated within
the step. -/
theorem C2_entry_effects_order (s : BState) :
    check_current_cell s = entryEffectsSpec s := by
  unfold check_current_cell entryEffectsSpec
  cases hc : currentCell s with
  | error e =>
    have hB : check_beer s = Except.error e := by
      unfold check_beer
      rw [hc]
      rfl
    rw [hB]
    rfl
  | ok c =>
    simp only [ok_bind]
    rw [check_beer_eq s c hc]
    simp only [ok_bind]
    have hcA : currentCell (if c = 'B' then { s with inBeer := !s.inBeer } else s) =
        Except.ok c := by rw [currentCell_if_beer, hc]
    rw [check_inverter_eq _ c hcA]
    simp only [ok_bind]
    have hcB : currentCell
        (if c = 'I' then
          { (if c = 'B' then { s with inBeer := !s.inBeer } else s) with
              priorities :=
                (if c = 'B' then { s with inBeer := !s.inBeer } else s).priorities.reverse }
         else (if c = 'B' then { s with inBeer := !s.inBeer } else s)) = Except.ok c := by
      rw [currentCell_if_inv, currentCell_if_beer, hc]
    rw [check_teleport_eq_spec _ c hcB]
    simp only [check_destroy_eq_spec]

/-! ## Frame lemmas: what each step phase can change on the board -/

theorem move_rows (u : BState) (d : Char) (v : BState)
    (h : move u d = Except.ok v) : v.rows = u.rows := by
  unfold move at h
  cases hd : directionsMap d with
  | none => rw [hd] at h; exact Except.noConfusion h
  | some dd =>
    rw [hd] at h
    cases hn : longName d with
    | none => rw [hn] at h; exact Except.noConfusion h
    | some nm =>
      rw [hn] at h
      injection h with h2
      subst h2
      rfl

theorem mvp_aux_rows (u v : BState) :
    ∀ l : List Char, move_via_priorities_aux u l = Except.ok v → v.rows = u.rows := by
  intro l
  induction l with
  | nil => intro h; exact Except.noConfusion h
  | cons d ds ih =>
    intro h
    unfold move_via_priorities_aux at h
    obtain ⟨b, hb, h2⟩ := (bind_eq_ok _ _ _).mp h
    cases b with
    | true => rw [if_pos rfl] at h2; exact ih h2
    | false => rw [if_neg Bool.false_ne_true] at h2; exact move_rows u d v h2

theorem check_beer_frame (s m : BState) (c : Char)
    (hc : currentCell s = Except.ok c) (h : check_beer s = Except.ok m) :
    m.rows = s.rows ∧ m.x = s.x ∧ m.y = s.y ∧ (c ≠ 'B' → m.inBeer = s.inBeer) := by
  rw [check_beer_eq s c hc] at h
  injection h with h2
  subst h2
  by_cases hB : c = 'B' <;> simp [hB]

theorem check_inverter_frame (s m : BState) (c : Char)
    (hc : currentCell s = Except.ok c) (h : check_inverter s = Except.ok m) :
    m.rows = s.rows ∧ m.x = s.x ∧ m.y = s.y ∧ m.inBeer = s.inBeer := by
  rw [check_inverter_eq s c hc] at h
  injection h with h2
  subst h2
  by_cases hI : c = 'I' <;> simp [hI]

theorem check_teleport_frame (s m : BState) (c : Char)
    (hc : currentCell s = Except.ok c) (h : check_teleport s = Except.ok m) :
    m.rows = s.rows ∧ m.inBeer = s.inBeer ∧ (c ≠ 'T' → m = s) := by
  unfold check_teleport at h
  rw [hc, ok_bind] at h
  split at h
  case isTrue hT =>
    split at h
    · exact Except.noConfusion h
    · split at h
      · exact Except.noConfusion h
      · rw [pure_eq_ok] at h
        injection h with h2
        subst h2
        exact ⟨rfl, rfl, fun hn => absurd hT hn⟩
  case isFalse hT =>
    rw [pure_eq_ok] at h
    injection h with h2
    subst h2
    exact ⟨rfl, rfl, fun _ => rfl⟩

theorem check_destroy_frame (s m : BState) (c : Char)
    (hc : currentCell s = Except.ok c) (h : check_destroy_obstacle s = Except.ok m) :
    (m = s ∧ ¬(c = 'X' ∧ s.inBeer = true)) ∨
    (c = 'X' ∧ s.inBeer = true ∧ m.x = s.x ∧ m.y = s.y ∧
      pySet2 s.rows s.x s.y ' ' = Except.ok m.rows) := by
  unfold check_destroy_obstacle at h
  rw [hc, ok_bind] at h
  split at h
  case isTrue hcond =>
    right
    obtain ⟨r, hr, h2⟩ := (bind_eq_ok _ _ _).mp h
    rw [pure_eq_ok] at h2
    injection h2 with h3
    subst h3
    exact ⟨hcond.1, hcond.2, rfl, rfl, hr⟩
  case isFalse hcond =>
    left
    rw [pure_eq_ok] at h
    injection h with h2
    subst h2
    exact ⟨rfl, hcond⟩

theorem check_current_cell_frame (s m : BState)
    (h : check_current_cell s = Except.ok m) :
    m.rows = s.rows ∨
      (pyGet2 s.rows m.x m.y = Except.ok 'X' ∧ s.inBeer = true ∧
       pySet2 s.rows m.x m.y ' ' = Except.ok m.rows) := by
  unfold check_current_cell at h
  obtain ⟨s1, h1, h⟩ := (bind_eq_ok _ _ _).mp h
  obtain ⟨s2, h2, h⟩ := (bind_eq_ok _ _ _).mp h
  obtain ⟨s3, h3, h4⟩ := (bind_eq_ok _ _ _).mp h
  cases hc : currentCell s with
  | error e =>
    unfold check_beer at h1
    rw [hc, error_bind] at h1
    exact Except.noConfusion h1
  | ok c =>
    obtain ⟨hr1, hx1, hy1, hb1⟩ := check_beer_frame s s1 c hc h1
    have hc1 : currentCell s1 = Except.ok c := by
      unfold currentCell
      rw [hr1, hx1, hy1]
      exact hc
    obtain ⟨hr2, hx2, hy2, hb2⟩ := check_inverter_frame s1 s2 c hc1 h2
    have hc2 : currentCell s2 = Except.ok c := by
      unfold currentCell
      rw [hr2, hx2, hy2]
      exact hc1
    obtain ⟨hr3, hb3, hmove3⟩ := check_teleport_frame s2 s3 c hc2 h3
    have hrows : s3.rows = s.rows := by rw [hr3, hr2, hr1]
    cases hc3 : currentCell s3 with
    | error e =>
      unfold check_destroy_obstacle at h4
      rw [hc3, error_bind] at h4
      exact Except.noConfusion h4
    | ok c3 =>
      rcases check_destroy_frame s3 m c3 hc3 h4 with ⟨hms, _⟩ | ⟨hX, hbeer, hx4, hy4, hset⟩
      · left
        rw [hms, hr3, hr2, hr1]
      · right
        have hcneB : c ≠ 'B' := by
          by_cases hT : c = 'T'
          · rw [hT]; decide
          · have hseq := hmove3 hT
            rw [hseq, hc2] at hc3
            injection hc3 with h5
            rw [← h5] at hX
            rw [hX]
            decide
        have hbeers : s.inBeer = true := by
          rw [← hb1 hcneB, ← hb2, ← hb3]
          exact hbeer
        refine ⟨?_, hbeers, ?_⟩
        · rw [hx4, hy4, ← hrows]
          rw [hX] at hc3
          exact hc3
        · rw [hx4, hy4, ← hrows]
          exact hset

/-- C9: a successful step changes the board only in its entry-effect phase,
and there at most at the walker's (possibly post-teleport) current cell, which
must have held the breakable obstacle with the pass-through flag set and is
replaced by the empty code; an empty cell never blocks a direction and
triggers no entry effect, so a destroyed cell behaves as empty and is never
changed again. -/
theorem C9_frame (s t : BState) (h : go s = Except.ok t) :
    (∃ m, check_current_cell s = Except.ok m ∧ t.rows = m.rows ∧
      (m.rows = s.rows ∨
        (pyGet2 s.rows m.x m.y = Except.ok 'X' ∧ s.inBeer = true ∧
         pySet2 s.rows m.x m.y ' ' = Except.ok m.rows))) ∧
    (∀ u : BState, ∀ d : Char, get_cell u d = Except.ok ' ' →
      check_for_obstacle u d = Except.ok false) ∧
    (∀ u : BState, currentCell u = Except.ok ' ' → check_current_cell u = Except.ok u) := by
  refine ⟨?_, ?_, ?_⟩
  · unfold go at h
    obtain ⟨m, hm, h2⟩ := (bind_eq_ok _ _ _).mp h
    obtain ⟨f, hf, h3⟩ := (bind_eq_ok _ _ _).mp h2
    refine ⟨m, hm, ?_, check_current_cell_frame s m hm⟩
    cases f with
    | true =>
      rw [if_pos rfl] at h3
      unfold move_in_forced_direction at h3
      obtain ⟨c, hc, h4⟩ := (bind_eq_ok _ _ _).mp h3
      exact move_rows m _ t h4
    | false =>
      rw [if_neg Bool.false_ne_true] at h3
      obtain ⟨b, hb, h4⟩ := (bind_eq_ok _ _ _).mp h3
      cases b with
      | true =>
        rw [if_pos rfl] at h4
        unfold move_via_priorities at h4
        exact mvp_aux_rows m t m.priorities h4
      | false =>
        rw [if_neg Bool.false_ne_true] at h4
        exact move_rows m _ t h4
  · intro u d hd
    rw [check_for_obstacle_eq u d ' ' hd]
    have hbl : blockedChar ' ' u.inBeer = false := by cases u.inBeer <;> rfl
    rw [hbl]
  · intro u hu
    have h1 : check_beer u = Except.ok u := by
      rw [check_beer_eq u ' ' hu]
      rfl
    have h2 : check_inverter u = Except.ok u := by
      rw [check_inverter_eq u ' ' hu]
      rfl
    have h3 : check_teleport u = Except.ok u :=
      check_teleport_not_T u ' ' hu (by decide)
    have h4 : check_destroy_obstacle u = Except.ok u :=
      check_destroy_not u ' ' hu (fun hcon => absurd hcon.1 (by decide))
    unfold check_current_cell
    rw [h1, ok_bind, h2, ok_bind, h3, ok_bind, h4]

/-- A beer-state walker standing on a breakable obstacle, about to destroy it
and move east onto the goal. -/
def c9state : BState := ⟨[['X', '$']], 0, 0, none, [], 'e', prioritiesDefault, true⟩

/-- The state after one step from `c9state`: the obstacle cell erased, the
walker moved east. -/
def c9final : BState := ⟨[[' ', '$']], 0, 1, none, ["EAST"], 'e', prioritiesDefault, true⟩

/-- Witness for C9: the frame property applied to the concrete destroying
step from `c9state` to `c9final`. -/
theorem C9_frame_witness :
    (∃ m, check_current_cell c9state = Except.ok m ∧ c9final.rows = m.rows ∧
      (m.rows = c9state.rows ∨
        (pyGet2 c9state.rows m.x m.y = Except.ok 'X' ∧ c9state.inBeer = true ∧
         pySet2 c9state.rows m.x m.y ' ' = Except.ok m.rows))) ∧
    check_for_obstacle c9final 'w' = Except.ok false := by
  have h := C9_frame c9state c9final (by decide)
  exact ⟨h.1, h.2.1 c9final 'w' (by decide)⟩
